import Mathlib

/-!
Verification of the parallel-safe structured dataset store
(src/savu/plugins/savers/hdf5_tomo_saver.py) against its specification.

The HDF5 backing files are modelled as pure data: a file holds a map from
group paths to attribute lists and a map from dataset paths to dataset
nodes.  Paths are lists of name components.  The master index file
(`nxs_file['entry']`) is modelled by its entry group.  Every store
operation additionally produces a trace of the collective calls it issues
(barriers, opens, group/dataset creations, attribute and data writes, link
registrations, closes), so that the barrier-bracketing discipline can be
stated about execution paths.  Fallible steps return `Except`; partially
mutated state is returned alongside the error, mirroring Python's in-place
mutation surviving a raised exception.
-/

set_option maxHeartbeats 1000000

namespace SavuHdf5

/-- Values storable in the model: the closed set of representable metadata
types (string and numeric scalars, numeric and string arrays).  A plain
Python list is a distinct constructor so that the `np.array` coercion the
saver performs on plain lists is observable. -/
inductive Value where
  | vStr (s : String)
  | vNat (n : Nat)
  | vNatArr (xs : List Nat)
  | vStrArr (xs : List String)
  | vList (xs : List Nat)
  deriving DecidableEq

/-- An HDF5 dataset node: shape, element type, optional chunk shape
(`none` means a contiguous extent), stored content, and attributes. -/
structure Dset where
  shape : List Nat
  dtype : String
  chunks : Option (List Nat)
  content : Value
  attrs : List (String × Value)
  deriving DecidableEq

/-- Contents of one HDF5 container file: groups (paths to attribute lists)
and datasets (paths to dataset nodes).  Paths are component lists. -/
structure H5Contents where
  groups : List (List String × List (String × Value))
  dsets : List (List String × Dset)
  deriving DecidableEq

/-- The filesystem: filename to file contents.  Writes through an open
handle are applied here directly (HDF5 write-through). -/
abbrev FS := List (String × H5Contents)

/-- An open h5py file handle: the filename it was opened on and the mode
it was opened with (`"w"` or `"r"`). -/
structure Handle where
  filename : String
  mode : String
  deriving DecidableEq

/-- Dataset Descriptor.  Modelled from the spec: the `Data` object the
saver mutates is defined outside this source slice, so its fields follow
the spec's Descriptor record (name, shape, element type, axis labels,
access patterns, free-form metadata, backing handle, remove flag) plus the
fields the saver itself stores on it (`data_info` group name, the created
group's name and path, the path of the `data` array).  `hasNameAttr`
records whether the external object exposes a raw `name` attribute: the
saver guards `group_name + '_' + data.name` with `except AttributeError`,
so the group name is suffixed only when the attribute exists. -/
structure Descriptor where
  name : String
  shape : List Nat
  dtype : String
  hasNameAttr : Bool
  axis_labels : List (String × String)
  data_patterns : List (String × List Nat × List Nat)
  meta_data : List (String × Value)
  data_info_group_name : String
  group_name : String
  group : List String
  dataPath : List String
  backing_file : Option Handle
  remove : Bool
  deriving DecidableEq

/-- The `intermediate` collection subgroup of the master index's entry
group: its attributes and the external links registered inside it
(name, target file, target in-file path). -/
structure InterGroup where
  attrs : List (String × Value)
  links : List (String × String × String)
  deriving DecidableEq

/-- The master index file's top-level `entry` group: its direct external
links and the optional `intermediate` collection subgroup. -/
structure NxsEntry where
  links : List (String × String × String)
  inter : Option InterGroup
  deriving DecidableEq

/-- Collective calls issued by the store, recorded as a trace. -/
inductive Ev where
  | barrier
  | openOp (filename : String) (mode : String)
  | createGroupOp (path : List String)
  | attrOp (attr : String)
  | createDatasetOp (path : List String)
  | writeOp (path : List String)
  | linkOp (name : String)
  | closeOp
  deriving DecidableEq

/-- Association-list lookup. -/
def getA {α β : Type} [DecidableEq α] : List (α × β) → α → Option β
  | [], _ => none
  | (k, v) :: m, k' => if k = k' then some v else getA m k'

/-- Association-list update: replace the binding if present, else append. -/
def setA {α β : Type} [DecidableEq α] : List (α × β) → α → β → List (α × β)
  | [], k, v => [(k, v)]
  | (k₀, v₀) :: m, k, v => if k₀ = k then (k, v) :: m else (k₀, v₀) :: setA m k v

/-- Split a character list on `'/'` (kernel-computable analogue of
Python's `str.split('/')`); never returns the empty list. -/
def splitSlash : List Char → List (List Char)
  | [] => [[]]
  | ch :: rest =>
    if ch = '/' then [] :: splitSlash rest
    else
      match splitSlash rest with
      | [] => [[ch]]
      | h :: t => (ch :: h) :: t

/-- `filename.split('/')[-1]` from the link-registration code. -/
def basename (s : String) : String :=
  ⟨((splitSlash s.data).getLast?).getD s.data⟩

/-- `np.array(mData) if isinstance(mData, list)`: plain lists are coerced
to dense arrays, everything else is kept verbatim. -/
def coerceValue : Value → Value
  | .vList xs => .vNatArr xs
  | v => v

/-- `mData.shape` of a stored value. -/
def valueShape : Value → List Nat
  | .vNatArr xs => [xs.length]
  | .vStrArr xs => [xs.length]
  | .vList xs => [xs.length]
  | _ => []

/-- `mData.dtype` of a stored value, as a tag. -/
def valueDtype : Value → String
  | .vStr _ => "str"
  | .vStrArr _ => "str"
  | _ => "int"

/-- Write one attribute on a group (creating the group node if the model
does not hold it yet). -/
def setGroupAttr (c : H5Contents) (p : List String) (a : String) (v : Value) :
    H5Contents :=
  match getA c.groups p with
  | some attrs => { c with groups := setA c.groups p (setA attrs a v) }
  | none => { c with groups := setA c.groups p [(a, v)] }

/-- `create_group`, with the attributes subsequently set on it. -/
def createGroupC (c : H5Contents) (p : List String)
    (attrs : List (String × Value)) : H5Contents :=
  { c with groups := setA c.groups p attrs }

/-- `create_dataset`. -/
def createDsetC (c : H5Contents) (p : List String) (ds : Dset) : H5Contents :=
  { c with dsets := setA c.dsets p ds }

/-- `__open_backing_h5` (hdf5_tomo_saver.py lines 69-85).  Barrier, open,
barrier.  In MPI mode the file is opened with mode `'w'` and the mpio
driver regardless of the requested mode (the source hard-codes `'w'`);
otherwise the requested mode is used.  A failing open (missing file in
read mode) raises before the trailing barrier. -/
def open_backing_h5 (fs : FS) (mpi : Bool) (filename mode : String) :
    Except String (Handle × FS) × List Ev :=
  if mpi then
    (.ok (⟨filename, "w"⟩, setA fs filename ⟨[], []⟩),
      [.barrier, .openOp filename "w", .barrier])
  else if mode = "w" then
    (.ok (⟨filename, "w"⟩, setA fs filename ⟨[], []⟩),
      [.barrier, .openOp filename "w", .barrier])
  else
    match getA fs filename with
    | some _ =>
        (.ok (⟨filename, mode⟩, fs), [.barrier, .openOp filename mode, .barrier])
    | none => (.error "IOError: Failed to open the hdf5 file", [.barrier])

/-- The underlying h5py file close, as an oracle: `ok = false` models the
close (or the post-close filename access in the success log line)
raising. -/
def fileCloseOp (ok : Bool) : Except String Unit :=
  if ok then .ok () else .error "close failed"

/-- `_close_file` (lines 180-197).  Barrier; if a backing handle is held,
try to close it — on success the handle is dropped, and any failure is
caught by the bare `except` and swallowed, leaving `backing_file` in
place; barrier. -/
def close_file (d : Descriptor) (ok : Bool) : Descriptor × List Ev :=
  match d.backing_file with
  | none => (d, [.barrier, .barrier])
  | some _ =>
    match fileCloseOp ok with
    | .ok _ => ({ d with backing_file := none }, [.barrier, .closeOp, .barrier])
    | .error _ => (d, [.barrier, .closeOp, .barrier])

/-- The per-axis loop body of `__output_axis_labels` (lines 129-145): the
value written for one axis — the metadata value under the label's name if
present (plain lists coerced to dense arrays), else `np.arange` of that
axis's extent. -/
def labelValue (meta : List (String × Value)) (shape : List Nat) (count : Nat)
    (nm : String) : Value :=
  match getA meta nm with
  | some v => coerceValue v
  | none => .vNatArr (List.range (shape.getD count 0))

/-- The dataset node created for one axis label: shaped and typed from the
written value, contiguous, carrying the `units` attribute. -/
def mkLabelDset (v : Value) (unit : String) : Dset :=
  ⟨valueShape v, valueDtype v, none, v, [("units", .vStr unit)]⟩

/-- The loop of `__output_axis_labels` over the remaining labels, carrying
the running axis index `count`.  Per axis: `<name>_indices` attribute on
the entry group, a dataset named after the label under `data.group`, the
data write into it, and its `units` attribute. -/
def writeAxisLabels (gp ep : List String) (meta : List (String × Value))
    (shape : List Nat) :
    Nat → List (String × String) → H5Contents → H5Contents × List Ev
  | _, [], c => (c, [])
  | count, (nm, u) :: rest, c =>
    let c₁ := setGroupAttr c ep (nm ++ "_indices") (.vNat count)
    let v := labelValue meta shape count nm
    let c₂ := createDsetC c₁ (gp ++ [nm]) (mkLabelDset v u)
    let r := writeAxisLabels gp ep meta shape (count + 1) rest c₂
    (r.1, [.attrOp (nm ++ "_indices"), .createDatasetOp (gp ++ [nm]),
           .writeOp (gp ++ [nm]), .attrOp "units"] ++ r.2)

/-- `__output_axis_labels` (lines 123-148): barrier; the per-axis loop;
the ordered list of label names recorded as the entry group's `axes`
attribute; barrier. -/
def output_axis_labels (d : Descriptor) (ep : List String) (c : H5Contents) :
    H5Contents × List Ev :=
  let r := writeAxisLabels d.group ep d.meta_data d.shape 0 d.axis_labels c
  (setGroupAttr r.1 ep "axes" (.vStrArr (d.axis_labels.map Prod.fst)),
    [.barrier] ++ r.2 ++ [.attrOp "axes", .barrier])

/-- The loop of `__output_data_patterns` over the declared patterns:
one `NXparameters` subgroup per pattern under the `patterns` group,
holding explicit `core_dir` and `slice_dir` index arrays. -/
def writePatterns (pp : List String) :
    List (String × List Nat × List Nat) → H5Contents → H5Contents × List Ev
  | [], c => (c, [])
  | (p, core, sdir) :: rest, c =>
    let c₁ := createGroupC c (pp ++ [p]) [("NX_class", .vStr "NXparameters")]
    let c₂ := createDsetC c₁ (pp ++ [p, "core_dir"])
      ⟨[core.length], "int", none, .vNatArr core, []⟩
    let c₃ := createDsetC c₂ (pp ++ [p, "slice_dir"])
      ⟨[sdir.length], "int", none, .vNatArr sdir, []⟩
    let r := writePatterns pp rest c₃
    (r.1, [.createGroupOp (pp ++ [p]), .attrOp "NX_class",
           .createDatasetOp (pp ++ [p, "core_dir"]),
           .createDatasetOp (pp ++ [p, "slice_dir"])] ++ r.2)

/-- `__output_data_patterns` (lines 150-164): barrier; a `patterns`
collection group under the entry group; the per-pattern loop; barrier. -/
def output_data_patterns (d : Descriptor) (ep : List String) (c : H5Contents) :
    H5Contents × List Ev :=
  let c₁ := createGroupC c (ep ++ ["patterns"]) [("NX_class", .vStr "NXcollection")]
  let r := writePatterns (ep ++ ["patterns"]) d.data_patterns c₁
  (r.1, [.barrier, .createGroupOp (ep ++ ["patterns"]), .attrOp "NX_class"]
        ++ r.2 ++ [.barrier])

/-- The loop of `__output_meta_data_dict` over the free-form metadata:
one `NXdata` subgroup per key under the `meta_data` group, holding one
dataset named after the key with the value stored as-is. -/
def writeMetaDict (mp : List String) :
    List (String × Value) → H5Contents → H5Contents × List Ev
  | [], c => (c, [])
  | (k, v) :: rest, c =>
    let c₁ := createGroupC c (mp ++ [k]) [("NX_class", .vStr "NXdata")]
    let c₂ := createDsetC c₁ (mp ++ [k, k]) ⟨valueShape v, valueDtype v, none, v, []⟩
    let r := writeMetaDict mp rest c₂
    (r.1, [.createGroupOp (mp ++ [k]), .attrOp "NX_class",
           .createDatasetOp (mp ++ [k, k])] ++ r.2)

/-- `__output_metadata_dict` (lines 166-178): barrier; a `meta_data`
collection group under the entry group; the per-key loop; barrier. -/
def output_metadata_dict (d : Descriptor) (ep : List String) (c : H5Contents) :
    H5Contents × List Ev :=
  let c₁ := createGroupC c (ep ++ ["meta_data"]) [("NX_class", .vStr "NXcollection")]
  let r := writeMetaDict (ep ++ ["meta_data"]) d.meta_data c₁
  (r.1, [.barrier, .createGroupOp (ep ++ ["meta_data"]), .attrOp "NX_class"]
        ++ r.2 ++ [.barrier])

/-- `__output_metadata` (lines 118-121): axis labels, then access
patterns, then the metadata dictionary, all into the same entry group. -/
def output_metadata (d : Descriptor) (ep : List String) (c : H5Contents) :
    H5Contents × List Ev :=
  let r₁ := output_axis_labels d ep c
  let r₂ := output_data_patterns d ep r₁.1
  let r₃ := output_metadata_dict d ep r₂.1
  (r₃.1, r₁.2 ++ r₂.2 ++ r₃.2)

/-- `__create_entries` (lines 87-116).  Barrier; the externally supplied
base group name is stored into `data_info`; the name is suffixed with the
dataset name when the external object exposes a raw `name` attribute (the
`except AttributeError` guard); the group is created with `NX_class` and
`signal` attributes; barrier; then the `data` array is allocated —
contiguously when `current_and_next` is 0, else with the chunk shape the
Chunk Planner returns, passed to `create_dataset` as-is, with the extra
barrier pair around the planner consultation; barrier. -/
def create_entries (fs : FS) (d : Descriptor) (base : String)
    (currentAndNext : Nat) (plan : List Nat → String → List Nat) :
    Except String (FS × Descriptor) × List Ev :=
  match d.backing_file with
  | none => (.error "AttributeError: backing_file is None", [.barrier])
  | some h =>
    match getA fs h.filename with
    | none => (.error "invalid file handle", [.barrier])
    | some c =>
      let gname := if d.hasNameAttr then base ++ "_" ++ d.name else base
      let c₁ := createGroupC c [gname]
        [("NX_class", .vStr "NXdata"), ("signal", .vStr "data")]
      let d₁ := { d with data_info_group_name := base, group_name := gname,
                         group := [gname], dataPath := [gname, "data"] }
      if currentAndNext = 0 then
        let c₂ := createDsetC c₁ [gname, "data"] ⟨d.shape, d.dtype, none, .vNat 0, []⟩
        (.ok (setA fs h.filename c₂, d₁),
          [.barrier, .createGroupOp [gname], .attrOp "NX_class", .attrOp "signal",
           .barrier, .createDatasetOp [gname, "data"], .barrier])
      else
        let chunks := plan d.shape d.dtype
        let c₂ := createDsetC c₁ [gname, "data"]
          ⟨d.shape, d.dtype, some chunks, .vNat 0, []⟩
        (.ok (setA fs h.filename c₂, d₁),
          [.barrier, .createGroupOp [gname], .attrOp "NX_class", .attrOp "signal",
           .barrier, .barrier, .barrier, .createDatasetOp [gname, "data"], .barrier])

/-- `__add_data_links` (lines 218-240).  Barrier; the backing-file group
under the `data_info` group name is looked up (a `KeyError` if absent) and
all metadata is serialized into it; then the link is dispatched on the
link type: `final_result` registers `final_result_<name>` directly in the
master index's entry group, `intermediate` ensures (`require_group`) the
`intermediate` collection subgroup and registers
`<group_name>_<name>` inside it, and any other value raises — after the
metadata was already written; a final barrier on the link paths.  The
raised error carries the mutated filesystem, as in-place mutation
survives a Python exception. -/
def add_data_links (fs : FS) (nxs : NxsEntry) (d : Descriptor)
    (linkType : String) : Except String Unit × FS × NxsEntry × List Ev :=
  match d.backing_file with
  | none => (.error "AttributeError: backing_file is None", fs, nxs, [.barrier])
  | some h =>
    match getA fs h.filename with
    | none => (.error "KeyError: invalid file handle", fs, nxs, [.barrier])
    | some c =>
      match getA c.groups [d.data_info_group_name] with
      | none => (.error "KeyError: unable to open object", fs, nxs, [.barrier])
      | some _ =>
        let r := output_metadata d [d.data_info_group_name] c
        let fs₁ := setA fs h.filename r.1
        let fname := basename h.filename
        if linkType = "final_result" then
          let nm := "final_result_" ++ d.name
          (.ok (), fs₁,
            { nxs with links := setA nxs.links nm (fname, d.group_name) },
            [.barrier] ++ r.2 ++ [.linkOp nm, .barrier])
        else if linkType = "intermediate" then
          let nm := d.group_name ++ "_" ++ d.name
          let ig := (nxs.inter).getD ⟨[], []⟩
          let ig₁ := { ig with
            attrs := setA ig.attrs "NX_class" (.vStr "NXcollection") }
          let ig₂ := { ig₁ with links := setA ig₁.links nm (fname, d.group_name) }
          (.ok (), fs₁, { nxs with inter := some ig₂ },
            [.barrier] ++ r.2 ++ [.createGroupOp ["intermediate"],
              .attrOp "NX_class", .linkOp nm, .barrier])
        else
          (.error "The link type is not known", fs₁, nxs, [.barrier] ++ r.2)

/-- `_save_data` (lines 199-216).  Barrier; if the remove flag is set or
the backing file is open read-only the link type is forced to `None`; a
`None` link type closes the file and returns nothing (the deliberate
early exit); otherwise the links are added, the backing filename and the
in-file path of the `data` array are captured, the file is closed, and
the pair `(entry, filename)` is returned after a final barrier.  An
error raised while linking propagates, leaving the file unclosed. -/
def save_data (fs : FS) (nxs : NxsEntry) (d : Descriptor)
    (linkType : Option String) (closeOk : Bool) :
    Except String (Option (List String × String)) ×
      FS × NxsEntry × Descriptor × List Ev :=
  if d.remove then
    let r := close_file d closeOk
    (.ok none, fs, nxs, r.1, [.barrier] ++ r.2)
  else
    match d.backing_file with
    | none => (.error "AttributeError: backing_file is None", fs, nxs, d, [.barrier])
    | some h =>
      match (if h.mode = "r" then none else linkType) with
      | none =>
        let r := close_file d closeOk
        (.ok none, fs, nxs, r.1, [.barrier] ++ r.2)
      | some ltv =>
        match add_data_links fs nxs d ltv with
        | (.error e, fs₁, nxs₁, ta) =>
          (.error e, fs₁, nxs₁, d, [.barrier] ++ ta)
        | (.ok _, fs₁, nxs₁, ta) =>
          let filename := h.filename
          let ent := d.dataPath
          let r := close_file d closeOk
          (.ok (some (ent, filename)), fs₁, nxs₁, r.1,
            [.barrier] ++ ta ++ r.2 ++ [.barrier])

/-- `_open_read_only` (lines 242-247): reopen the backing file through
`__open_backing_h5` with mode `'r'`, rebind `data.data` to the previously
known in-file path (a `KeyError` if it is gone), barrier. -/
def open_read_only (fs : FS) (mpi : Bool) (d : Descriptor) (filename : String)
    (ent : List String) : Except String (Descriptor × FS) × List Ev :=
  match open_backing_h5 fs mpi filename "r" with
  | (.error e, t) => (.error e, t)
  | (.ok (h, fs₁), t) =>
    match getA fs₁ h.filename with
    | none => (.error "KeyError: invalid file handle", t)
    | some c =>
      if (getA c.dsets ent).isSome then
        (.ok ({ d with backing_file := some h, dataPath := ent }, fs₁),
          t ++ [.barrier])
      else (.error "KeyError: unable to open object", t)

/-- Trace well-formedness as the spec demands it, literally: every
non-barrier collective call is IMMEDIATELY preceded and immediately
followed by a barrier. -/
def immBracketed (t : List Ev) : Prop :=
  ∀ pre x post, t = pre ++ x :: post → x ≠ Ev.barrier →
    pre.getLast? = some Ev.barrier ∧ post.head? = some Ev.barrier

/-- Trace well-formedness as the code provides it: every non-barrier
collective call has some barrier before it and some barrier after it
within the same store call's trace. -/
def bracketed (t : List Ev) : Prop :=
  ∀ pre x post, t = pre ++ x :: post → x ≠ Ev.barrier →
    Ev.barrier ∈ pre ∧ Ev.barrier ∈ post

/-- A trace that begins and ends with a barrier. -/
def goodTrace (t : List Ev) : Prop :=
  t.head? = some Ev.barrier ∧ t.getLast? = some Ev.barrier

/-- A concrete filesystem fixture: one backing file that already holds the
entry group `g` (as `setup` would have created it). -/
def fs0 : FS := [("d/run42.h5", ⟨[(["g"], [])], []⟩)]

/-- A concrete Descriptor fixture with an open backing handle on `fs0`'s
file, one axis label whose value is supplied in the metadata as a plain
list, one declared access pattern, and one free-form metadata key. -/
def d0 : Descriptor :=
  { name := "Peaks", shape := [2, 2], dtype := "float32", hasNameAttr := false,
    axis_labels := [("x", "mm")], data_patterns := [("SINOGRAM", [1], [0])],
    meta_data := [("x", .vList [5, 7])],
    data_info_group_name := "g", group_name := "g", group := ["g"],
    dataPath := ["g", "data"], backing_file := some ⟨"d/run42.h5", "w"⟩,
    remove := false }

/-- A concrete Chunk Planner fixture. -/
def plan0 : List Nat → String → List Nat := fun s _ => s.map (fun n => n / 2 + 1)

/-- An empty master-index entry group fixture. -/
def nxs0 : NxsEntry := ⟨[], none⟩

/-- The Descriptor fixture with its remove flag set. -/
def dRem : Descriptor := { d0 with remove := true }

/-- A master-index fixture whose entry group already holds one final link
and an `intermediate` collection with one registered link. -/
def nxsI : NxsEntry :=
  ⟨[("final_result_Old", "old.h5", "og")],
   some ⟨[("NX_class", .vStr "NXcollection")], [("other_Link", "f.h5", "p")]⟩⟩

/-- The Descriptor fixture with its backing file reopened read-only. -/
def dRO : Descriptor := { d0 with backing_file := some ⟨"d/run42.h5", "r"⟩ }

/-- A backing-file contents fixture holding the entry group `g` and its
`data` array, as `__create_entries` would have left it. -/
def cFull : H5Contents :=
  ⟨[(["g"], [])], [(["g", "data"], ⟨[2, 2], "float32", none, .vNat 0, []⟩)]⟩

/-- A filesystem fixture holding `cFull` under the backing file's name. -/
def fsFull : FS := [("d/run42.h5", cFull)]

/-- Observation helper: did the call raise? -/
def isErr {α : Type} : Except String α → Bool
  | .error _ => true
  | .ok _ => false

/-- Observation helper: the `data` dataset node created by
`__create_entries`, read back out of its result. -/
def entryDset (r : Except String (FS × Descriptor)) (fn : String) : Option Dset :=
  match r with
  | .error _ => none
  | .ok (fs₁, d₁) => (getA fs₁ fn).bind (fun c₁ => getA c₁.dsets [d₁.group_name, "data"])

/-- Observation helper: the stored content of the dataset at a path. -/
def dsetContent (c : H5Contents) (p : List String) : Option Value :=
  (getA c.dsets p).map Dset.content

/-- Observation helper: an attribute of the dataset at a path. -/
def dsetAttr (c : H5Contents) (p : List String) (a : String) : Option Value :=
  (getA c.dsets p).bind (fun ds => getA ds.attrs a)

/-- Observation helper: an attribute of the group at a path. -/
def groupAttr (c : H5Contents) (p : List String) (a : String) : Option Value :=
  (getA c.groups p).bind (fun ga => getA ga a)

/-- Observation helper: the links of the master index's `intermediate`
collection subgroup (empty when the subgroup does not exist). -/
def interLinks (nxs : NxsEntry) : List (String × String × String) :=
  (nxs.inter.map InterGroup.links).getD []

/-- Observation helper: the attributes of the master index's
`intermediate` collection subgroup. -/
def interAttrs (nxs : NxsEntry) : List (String × Value) :=
  (nxs.inter.map InterGroup.attrs).getD []

theorem getA_setA_self {α β : Type} [DecidableEq α] (m : List (α × β)) (k : α)
    (v : β) : getA (setA m k v) k = some v := by
  induction m with
  | nil => simp [getA, setA]
  | cons kv m ih =>
    obtain ⟨k₀, v₀⟩ := kv
    by_cases h : k₀ = k <;> simp [getA, setA, h, ih]

theorem getA_setA_ne {α β : Type} [DecidableEq α] (m : List (α × β)) (k k' : α)
    (v : β) (h : k ≠ k') : getA (setA m k v) k' = getA m k' := by
  induction m with
  | nil => simp [getA, setA, h]
  | cons kv m ih =>
    obtain ⟨k₀, v₀⟩ := kv
    by_cases h₀ : k₀ = k
    · subst h₀; simp [getA, setA, h]
    · simp only [setA, if_neg h₀, getA]
      by_cases h₁ : k₀ = k' <;> simp [h₁, ih]

theorem isSome_getA_setA {α β : Type} [DecidableEq α] (m : List (α × β))
    (k q : α) (v : β) (h : (getA m q).isSome) :
    (getA (setA m k v) q).isSome := by
  by_cases hk : k = q
  · subst hk; simp [getA_setA_self]
  · rw [getA_setA_ne _ _ _ _ hk]; exact h

theorem ne_of_getA_eq_none {α β : Type} [DecidableEq α] (m : List (α × β))
    (k k' : α) (v : β) (h : getA m k = none) (hm : (k', v) ∈ m) : k' ≠ k := by
  induction m with
  | nil => cases hm
  | cons kv m ih =>
    obtain ⟨k₀, v₀⟩ := kv
    simp only [getA] at h
    by_cases h₀ : k₀ = k
    · simp [h₀] at h
    · rcases List.mem_cons.mp hm with h₁ | h₁
      · cases h₁; exact h₀
      · exact ih (by simpa [h₀] using h) h₁

theorem isSome_getA_of_mem {α β : Type} [DecidableEq α] (m : List (α × β))
    (k : α) (v : β) (hm : (k, v) ∈ m) : (getA m k).isSome := by
  induction m with
  | nil => cases hm
  | cons kv m ih =>
    obtain ⟨k₀, v₀⟩ := kv
    by_cases h₀ : k₀ = k
    · simp [getA, h₀]
    · rcases List.mem_cons.mp hm with h₁ | h₁
      · cases h₁; simp at h₀
      · simp [getA, h₀, ih h₁]

theorem last_barrier_append (l m : List Ev) (h : m.getLast? = some Ev.barrier) :
    (l ++ m).getLast? = some Ev.barrier := by
  have hm : m ≠ [] := by intro e; subst e; simp at h
  rw [List.getLast?_append_of_ne_nil _ hm]; exact h

theorem head_barrier_append (l m : List Ev) (h : l.head? = some Ev.barrier) :
    (l ++ m).head? = some Ev.barrier := by
  cases l with
  | nil => simp at h
  | cons a l' => simpa using h

theorem mem_of_getLast?_eq (l : List Ev) (b : Ev)
    (h : l.getLast? = some b) : b ∈ l := by
  induction l with
  | nil => simp at h
  | cons a l ih =>
    cases l with
    | nil => simp at h; simp [h]
    | cons a' l' =>
      rw [List.getLast?_cons_cons] at h
      exact List.mem_cons_of_mem _ (ih h)

theorem bracketed_of_goodTrace (t : List Ev) (h : goodTrace t) : bracketed t := by
  rintro pre x post rfl hx
  obtain ⟨h1, h2⟩ := h
  constructor
  · cases pre with
    | nil => simp at h1; exact absurd h1 hx
    | cons a pre' =>
      simp at h1
      subst h1
      exact List.mem_cons_self _ _
  · rw [List.getLast?_append_cons] at h2
    cases post with
    | nil => simp at h2; exact absurd h2 hx
    | cons p post' =>
      rw [List.getLast?_cons_cons] at h2
      exact mem_of_getLast?_eq _ _ h2

theorem goodTrace_open_backing_h5 (fs : FS) (mpi : Bool) (fn md : String) :
    goodTrace (open_backing_h5 fs mpi fn md).2 := by
  unfold open_backing_h5
  split
  · exact ⟨rfl, rfl⟩
  · split
    · exact ⟨rfl, rfl⟩
    · split
      · exact ⟨rfl, rfl⟩
      · exact ⟨rfl, rfl⟩

theorem goodTrace_close_file (d : Descriptor) (ok : Bool) :
    goodTrace (close_file d ok).2 := by
  unfold close_file
  split
  · exact ⟨rfl, rfl⟩
  · split
    · exact ⟨rfl, rfl⟩
    · exact ⟨rfl, rfl⟩

theorem goodTrace_create_entries (fs : FS) (d : Descriptor) (base : String)
    (cn : Nat) (plan : List Nat → String → List Nat) :
    goodTrace (create_entries fs d base cn plan).2 := by
  unfold create_entries
  split
  · exact ⟨rfl, rfl⟩
  · split
    · exact ⟨rfl, rfl⟩
    · dsimp only
      split
      · exact ⟨rfl, rfl⟩
      · exact ⟨rfl, rfl⟩

theorem goodTrace_output_axis_labels (d : Descriptor) (ep : List String)
    (c : H5Contents) : goodTrace (output_axis_labels d ep c).2 := by
  unfold output_axis_labels
  dsimp only
  exact ⟨rfl, last_barrier_append _ _ rfl⟩

theorem goodTrace_output_data_patterns (d : Descriptor) (ep : List String)
    (c : H5Contents) : goodTrace (output_data_patterns d ep c).2 := by
  unfold output_data_patterns
  dsimp only
  exact ⟨rfl, last_barrier_append _ _ rfl⟩

theorem goodTrace_output_metadata_dict (d : Descriptor) (ep : List String)
    (c : H5Contents) : goodTrace (output_metadata_dict d ep c).2 := by
  unfold output_metadata_dict
  dsimp only
  exact ⟨rfl, last_barrier_append _ _ rfl⟩

theorem goodTrace_output_metadata (d : Descriptor) (ep : List String)
    (c : H5Contents) : goodTrace (output_metadata d ep c).2 := by
  unfold output_metadata
  dsimp only
  refine ⟨?_, ?_⟩
  · exact head_barrier_append _ _ (head_barrier_append _ _
      (goodTrace_output_axis_labels d ep c).1)
  · exact last_barrier_append _ _
      (goodTrace_output_metadata_dict d ep
        (output_data_patterns d ep (output_axis_labels d ep c).1).1).2

theorem goodTrace_add_data_links (fs : FS) (nxs : NxsEntry) (d : Descriptor)
    (lt : String) : goodTrace (add_data_links fs nxs d lt).2.2.2 := by
  unfold add_data_links
  split
  · exact ⟨rfl, rfl⟩
  · split
    · exact ⟨rfl, rfl⟩
    · split
      · exact ⟨rfl, rfl⟩
      · dsimp only
        split
        · exact ⟨rfl, last_barrier_append _ _ rfl⟩
        · split
          · exact ⟨rfl, last_barrier_append _ _ rfl⟩
          · exact ⟨rfl, last_barrier_append _ _
              (goodTrace_output_metadata _ _ _).2⟩

theorem goodTrace_save_data (fs : FS) (nxs : NxsEntry) (d : Descriptor)
    (lt : Option String) (ok : Bool) :
    goodTrace (save_data fs nxs d lt ok).2.2.2.2 := by
  unfold save_data
  split
  · exact ⟨rfl, last_barrier_append _ _ (goodTrace_close_file d ok).2⟩
  · split
    · exact ⟨rfl, rfl⟩
    · split
      · exact ⟨rfl, last_barrier_append _ _ (goodTrace_close_file d ok).2⟩
      · rename_i ltv hlt
        split
        · rename_i e fs₁ nxs₁ ta hlinks
          refine ⟨rfl, ?_⟩
          have hta : (add_data_links fs nxs d ltv).2.2.2 = ta :=
            congrArg (fun z => z.2.2.2) hlinks
          rw [← hta]
          exact last_barrier_append _ _ (goodTrace_add_data_links fs nxs d ltv).2
        · exact ⟨rfl, last_barrier_append _ _ rfl⟩

theorem goodTrace_open_read_only (fs : FS) (mpi : Bool) (d : Descriptor)
    (fn : String) (ent : List String) :
    goodTrace (open_read_only fs mpi d fn ent).2 := by
  unfold open_read_only
  split
  · rename_i e t hop
    have : t = (open_backing_h5 fs mpi fn "r").2 := by rw [hop]
    rw [this]
    exact goodTrace_open_backing_h5 fs mpi fn "r"
  · rename_i h fs₁ t hop
    have ht : t = (open_backing_h5 fs mpi fn "r").2 := by rw [hop]
    split
    · rw [ht]; exact goodTrace_open_backing_h5 fs mpi fn "r"
    · split
      · refine ⟨?_, last_barrier_append _ _ rfl⟩
        exact head_barrier_append _ _
          (by rw [ht]; exact (goodTrace_open_backing_h5 fs mpi fn "r").1)
      · rw [ht]; exact goodTrace_open_backing_h5 fs mpi fn "r"

/-- C2 counterexample: the claim that every collective operation is
IMMEDIATELY preceded and immediately followed by a barrier fails on the
code: in `__create_entries`, `create_group` is immediately followed by
two attribute writes, not by a barrier, so the `NX_class` attribute write
is not immediately preceded by a barrier.  Exhibited on a concrete
Descriptor and filesystem. -/
theorem C2_counterexample :
    ¬ immBracketed (create_entries fs0 d0 "g" 0 plan0).2 := by
  intro h
  have hsplit := h [Ev.barrier, Ev.createGroupOp ["g"]] (Ev.attrOp "NX_class")
    [Ev.attrOp "signal", Ev.barrier, Ev.createDatasetOp ["g", "data"], Ev.barrier]
    (by decide) (by decide)
  exact absurd hsplit.1 (by decide)

/-- C2 (amended): every collective operation of the store (backing-file
open, group and dataset creation, metadata writes, link registration,
close) has a barrier before it and a barrier after it within the trace of
the store call that issues it, on every execution path — including the
early-exit, contiguous-allocation, and error paths — though not always
IMMEDIATELY adjacent to it. -/
theorem C2_every_call_bracketed (fs : FS) (mpi : Bool) (fn md base : String)
    (d : Descriptor) (cn : Nat) (plan : List Nat → String → List Nat)
    (nxs : NxsEntry) (lt : Option String) (ltv : String) (ok : Bool)
    (ep ent : List String) (c : H5Contents) :
    bracketed (open_backing_h5 fs mpi fn md).2 ∧
    bracketed (create_entries fs d base cn plan).2 ∧
    bracketed (output_metadata d ep c).2 ∧
    bracketed (close_file d ok).2 ∧
    bracketed (add_data_links fs nxs d ltv).2.2.2 ∧
    bracketed (save_data fs nxs d lt ok).2.2.2.2 ∧
    bracketed (open_read_only fs mpi d fn ent).2 :=
  ⟨bracketed_of_goodTrace _ (goodTrace_open_backing_h5 fs mpi fn md),
   bracketed_of_goodTrace _ (goodTrace_create_entries fs d base cn plan),
   bracketed_of_goodTrace _ (goodTrace_output_metadata d ep c),
   bracketed_of_goodTrace _ (goodTrace_close_file d ok),
   bracketed_of_goodTrace _ (goodTrace_add_data_links fs nxs d ltv),
   bracketed_of_goodTrace _ (goodTrace_save_data fs nxs d lt ok),
   bracketed_of_goodTrace _ (goodTrace_open_read_only fs mpi d fn ent)⟩

/-- C3 counterexample: the claim that `backing_location` is unset after
`close` whether or not the underlying close succeeded fails on the code:
with a failing underlying close, the bare `except` swallows the error
before the `backing_file = None` assignment is reached, so the handle is
still set when `_close_file` returns. -/
theorem C3_counterexample :
    (close_file d0 false).1.backing_file = some ⟨"d/run42.h5", "w"⟩ := by decide

/-- C3 (amended): `_close_file` never propagates a failure of the
underlying file close — the failure is logged and swallowed and the call
returns normally — and `backing_file` is unset when the underlying close
succeeds; on a failed close the Descriptor is left unchanged, with
`backing_file` still set. -/
theorem C3_close_swallows_failure (d : Descriptor) :
    (close_file d true).1.backing_file = none ∧ (close_file d false).1 = d := by
  constructor
  · cases h : d.backing_file <;> simp [close_file, fileCloseOp, h]
  · cases h : d.backing_file <;> simp [close_file, fileCloseOp, h]

/-- C4: closing a Descriptor twice produces no error and no duplicate
side effect — after a (successful) close, a second `_close_file` call
finds `backing_file` unset, issues no close operation at all (its trace
is just the two barriers), and returns the Descriptor unchanged, whatever
the close oracle would say. -/
theorem C4_close_idempotent (d : Descriptor) (ok₂ : Bool) :
    close_file (close_file d true).1 ok₂ =
      ((close_file d true).1, [Ev.barrier, Ev.barrier]) := by
  cases h : d.backing_file <;> simp [close_file, fileCloseOp, h]

/-- C5: `__create_entries` allocates the `data` array contiguously —
chunks absent, extent exactly `shape` — when no access-pattern hint
(`current_and_next = 0`) is declared, and otherwise passes the chunk
shape returned by the Chunk Planner to `create_dataset` unaltered. -/
theorem C5_chunk_policy (fs : FS) (d : Descriptor) (base : String) (cn : Nat)
    (plan : List Nat → String → List Nat) (h : Handle) (c : H5Contents)
    (hbf : d.backing_file = some h) (hfs : getA fs h.filename = some c)
    (hcn : cn ≠ 0) :
    entryDset (create_entries fs d base 0 plan).1 h.filename =
      some ⟨d.shape, d.dtype, none, .vNat 0, []⟩ ∧
    entryDset (create_entries fs d base cn plan).1 h.filename =
      some ⟨d.shape, d.dtype, some (plan d.shape d.dtype), .vNat 0, []⟩ := by
  constructor
  · simp only [create_entries, hbf, hfs, if_true]
    simp only [entryDset, createDsetC, createGroupC, getA_setA_self, Option.bind]
  · simp only [create_entries, hbf, hfs]
    rw [if_neg hcn]
    simp only [entryDset, createDsetC, createGroupC, getA_setA_self, Option.bind]

/-- C5 witness: the theorem applied to the concrete fixture, in both the
contiguous and the chunked configuration. -/
theorem C5_witness :
    entryDset (create_entries fs0 d0 "g" 0 plan0).1 "d/run42.h5" =
      some ⟨[2, 2], "float32", none, .vNat 0, []⟩ ∧
    entryDset (create_entries fs0 d0 "g" 3 plan0).1 "d/run42.h5" =
      some ⟨[2, 2], "float32", some [2, 2], .vNat 0, []⟩ :=
  C5_chunk_policy fs0 d0 "g" 3 plan0 ⟨"d/run42.h5", "w"⟩ ⟨[(["g"], [])], []⟩
    rfl rfl (by decide)

/-- Under a valid open handle, a backing file that exists, an entry group
that exists, and a recognized link type, `__add_data_links` succeeds; its
result components are exposed for reuse. -/
theorem add_data_links_ok (fs : FS) (nxs : NxsEntry) (d : Descriptor)
    (lt : String) (h : Handle) (c : H5Contents) (ga : List (String × Value))
    (hbf : d.backing_file = some h) (hfs : getA fs h.filename = some c)
    (hg : getA c.groups [d.data_info_group_name] = some ga)
    (hlt : lt = "final_result" ∨ lt = "intermediate") :
    ∃ fs₁ nxs₁ t, add_data_links fs nxs d lt = (.ok (), fs₁, nxs₁, t) := by
  rcases hlt with h1 | h1 <;> subst h1 <;>
    simp [add_data_links, hbf, hfs, hg]

/-- C7: when the remove flag is set, or the backing file is open
read-only, `_save_data` performs no mutation of the master index and
writes nothing (the filesystem is untouched), still closes the backing
file (the trace is barrier, barrier, close, barrier and the handle is
dropped), and returns successfully with no value — an early exit, not an
error. -/
theorem C7_early_exit (fs : FS) (nxs : NxsEntry) (d : Descriptor)
    (lt : Option String) (h : Handle)
    (hbf : d.backing_file = some h)
    (hcond : d.remove = true ∨ h.mode = "r") :
    (save_data fs nxs d lt true).1 = .ok none ∧
    (save_data fs nxs d lt true).2.1 = fs ∧
    (save_data fs nxs d lt true).2.2.1 = nxs ∧
    (save_data fs nxs d lt true).2.2.2.1.backing_file = none ∧
    (save_data fs nxs d lt true).2.2.2.2 =
      [Ev.barrier, Ev.barrier, Ev.closeOp, Ev.barrier] := by
  rcases hcond with hrem | hmode
  · simp [save_data, hrem, close_file, hbf, fileCloseOp]
  · cases hd : d.remove
    · simp [save_data, hd, hbf, hmode, close_file, fileCloseOp]
    · simp [save_data, hd, close_file, hbf, fileCloseOp]

/-- C7 witness: the theorem applied to the concrete fixtures, once with
the remove flag set and once with a read-only handle (extracting the
remove-flag instance). -/
theorem C7_witness :
    (save_data fs0 nxs0 dRem (some "final_result") true).1 = .ok none ∧
    (save_data fs0 nxs0 dRem (some "final_result") true).2.1 = fs0 ∧
    (save_data fs0 nxs0 dRem (some "final_result") true).2.2.1 = nxs0 ∧
    (save_data fs0 nxs0 dRem (some "final_result") true).2.2.2.1.backing_file
      = none ∧
    (save_data fs0 nxs0 dRem (some "final_result") true).2.2.2.2 =
      [Ev.barrier, Ev.barrier, Ev.closeOp, Ev.barrier] :=
  C7_early_exit fs0 nxs0 dRem (some "final_result") ⟨"d/run42.h5", "w"⟩
    rfl (Or.inl rfl)

/-- C10: when a link is actually registered (recognized link kind, remove
flag unset, file open for writing, entry group present), `_save_data`
returns the pair of the in-file path of the `data` array and the backing
file's name, both captured before the file is closed; and when linking is
skipped (no link type), it returns nothing. -/
theorem C10_save_returns (fs : FS) (nxs : NxsEntry) (d : Descriptor)
    (lt : String) (h : Handle) (c : H5Contents) (ga : List (String × Value))
    (hbf : d.backing_file = some h) (hmode : h.mode ≠ "r")
    (hrem : d.remove = false) (hfs : getA fs h.filename = some c)
    (hg : getA c.groups [d.data_info_group_name] = some ga)
    (hlt : lt = "final_result" ∨ lt = "intermediate") :
    (save_data fs nxs d (some lt) true).1 =
      .ok (some (d.dataPath, h.filename)) ∧
    (save_data fs nxs d none true).1 = .ok none := by
  obtain ⟨fs₁, nxs₁, t, hE⟩ := add_data_links_ok fs nxs d lt h c ga hbf hfs hg hlt
  constructor
  · simp [save_data, hrem, hbf, hmode, hE]
  · simp [save_data, hrem, hbf]

/-- C10 witness: the theorem applied to the concrete fixture with a
`final_result` link. -/
theorem C10_witness :
    (save_data fs0 nxs0 d0 (some "final_result") true).1 =
      .ok (some (["g", "data"], "d/run42.h5")) ∧
    (save_data fs0 nxs0 d0 none true).1 = .ok none :=
  C10_save_returns fs0 nxs0 d0 "final_result" ⟨"d/run42.h5", "w"⟩
    ⟨[(["g"], [])], []⟩ [] rfl (by decide) rfl rfl rfl (Or.inl rfl)

/-- C1 counterexample: calling `__add_data_links` with an unrecognized
link kind on the concrete fixture raises, and the master index is indeed
untouched — but, contrary to the claim that no metadata is written to
either file before the error, the backing file has already received the
metadata (the `patterns` collection group now exists in it). -/
theorem C1_counterexample :
    isErr (add_data_links fs0 nxs0 d0 "bogus").1 = true ∧
    (add_data_links fs0 nxs0 d0 "bogus").2.2.1 = nxs0 ∧
    (getA ((getA (add_data_links fs0 nxs0 d0 "bogus").2.1
        "d/run42.h5").getD ⟨[], []⟩).groups ["g", "patterns"]).isSome = true := by
  decide

/-- C1 (amended): linking with an unrecognized link kind raises and
performs no master-index mutation — no group and no link is created
there — but the metadata writes to the backing file have already
happened by the time the error is raised. -/
theorem C1_unknown_link_kind (fs : FS) (nxs : NxsEntry) (d : Descriptor)
    (lt : String) (h1 : lt ≠ "final_result") (h2 : lt ≠ "intermediate") :
    isErr (add_data_links fs nxs d lt).1 = true ∧
    (add_data_links fs nxs d lt).2.2.1 = nxs := by
  unfold add_data_links
  split
  · exact ⟨rfl, rfl⟩
  · split
    · exact ⟨rfl, rfl⟩
    · split
      · exact ⟨rfl, rfl⟩
      · dsimp only
        rw [if_neg h1, if_neg h2]
        exact ⟨rfl, rfl⟩

/-- C1 witness: the amended theorem applied to the concrete fixture with
the unrecognized link kind `bogus`. -/
theorem C1_witness :
    isErr (add_data_links fs0 nxs0 d0 "bogus").1 = true ∧
    (add_data_links fs0 nxs0 d0 "bogus").2.2.1 = nxs0 :=
  C1_unknown_link_kind fs0 nxs0 d0 "bogus" (by decide) (by decide)

/-- C6: with link kind `final_result`, `__add_data_links` registers in
the master index's entry group an external reference named
`final_result_<dataset_name>` pointing at the backing file's name (its
last path component) and the dataset's group path, leaving the
`intermediate` subgroup untouched; with link kind `intermediate`, it
ensures the `intermediate` collection subgroup exists (tagged
`NXcollection`), registers `<group_name>_<dataset_name>` inside it, and
preserves every other link already registered there — so repeated calls
reuse the subgroup rather than recreating it. -/
theorem C6_link_registration (fs : FS) (nxs : NxsEntry) (d : Descriptor)
    (h : Handle) (c : H5Contents) (ga : List (String × Value))
    (hbf : d.backing_file = some h) (hfs : getA fs h.filename = some c)
    (hg : getA c.groups [d.data_info_group_name] = some ga) :
    ((add_data_links fs nxs d "final_result").1 = .ok () ∧
     getA (add_data_links fs nxs d "final_result").2.2.1.links
         ("final_result_" ++ d.name) =
       some (basename h.filename, d.group_name) ∧
     (add_data_links fs nxs d "final_result").2.2.1.inter = nxs.inter) ∧
    ((add_data_links fs nxs d "intermediate").1 = .ok () ∧
     (add_data_links fs nxs d "intermediate").2.2.1.inter.isSome = true ∧
     getA (interAttrs (add_data_links fs nxs d "intermediate").2.2.1)
         "NX_class" = some (.vStr "NXcollection") ∧
     getA (interLinks (add_data_links fs nxs d "intermediate").2.2.1)
         (d.group_name ++ "_" ++ d.name) =
       some (basename h.filename, d.group_name) ∧
     ∀ k, k ≠ d.group_name ++ "_" ++ d.name →
       getA (interLinks (add_data_links fs nxs d "intermediate").2.2.1) k =
         getA (interLinks nxs) k) := by
  constructor
  · refine ⟨?_, ?_, ?_⟩
    · simp [add_data_links, hbf, hfs, hg]
    · simp [add_data_links, hbf, hfs, hg, getA_setA_self]
    · simp [add_data_links, hbf, hfs, hg]
  · refine ⟨?_, ?_, ?_, ?_, ?_⟩
    · simp [add_data_links, hbf, hfs, hg]
    · simp [add_data_links, hbf, hfs, hg]
    · simp [add_data_links, hbf, hfs, hg, interAttrs, getA_setA_self]
    · simp [add_data_links, hbf, hfs, hg, interLinks, getA_setA_self]
    · intro k hk
      simp only [add_data_links, hbf, hfs, hg]
      simp [interLinks]
      rw [getA_setA_ne _ _ _ _ (Ne.symm hk)]
      cases nxs.inter <;> simp [getA]

/-- C6 witness: the theorem applied to the concrete fixture against a
master index that already holds an `intermediate` collection — the final
link lands in the entry group, the intermediate link lands inside the
collection, and the collection's pre-existing link survives. -/
theorem C6_witness :
    getA (add_data_links fs0 nxsI d0 "final_result").2.2.1.links
        "final_result_Peaks" = some ("run42.h5", "g") ∧
    getA (interLinks (add_data_links fs0 nxsI d0 "intermediate").2.2.1)
        "g_Peaks" = some ("run42.h5", "g") ∧
    getA (interLinks (add_data_links fs0 nxsI d0 "intermediate").2.2.1)
        "other_Link" = some ("f.h5", "p") := by
  have T := C6_link_registration fs0 nxsI d0 ⟨"d/run42.h5", "w"⟩
    ⟨[(["g"], [])], []⟩ [] rfl rfl rfl
  refine ⟨?_, ?_, ?_⟩
  · have e := T.1.2.1
    rw [show ("final_result_" ++ d0.name) = "final_result_Peaks" by rfl] at e
    rw [(by decide :
      (basename (⟨"d/run42.h5", "w"⟩ : Handle).filename, d0.group_name) =
        ("run42.h5", "g"))] at e
    exact e
  · have e := T.2.2.2.2.1
    rw [show (d0.group_name ++ "_" ++ d0.name) = "g_Peaks" by rfl] at e
    rw [(by decide :
      (basename (⟨"d/run42.h5", "w"⟩ : Handle).filename, d0.group_name) =
        ("run42.h5", "g"))] at e
    exact e
  · exact T.2.2.2.2.2 "other_Link" (by decide)

theorem dsets_setGroupAttr (c : H5Contents) (p : List String) (a : String)
    (v : Value) : (setGroupAttr c p a v).dsets = c.dsets := by
  unfold setGroupAttr
  split <;> rfl

theorem append_ne_of_ne_lists {α : Type} (gp : List α) (l₁ l₂ : List α)
    (h : l₁ ≠ l₂) : gp ++ l₁ ≠ gp ++ l₂ :=
  fun e => h (List.append_cancel_left e)

theorem labelValue_eq (meta : List (String × Value)) (shape : List Nat)
    (i : Nat) (nm : String) :
    labelValue meta shape i nm =
      match getA meta nm with
      | some (.vList xs) => .vNatArr xs
      | some v => v
      | none => .vNatArr (List.range (shape.getD i 0)) := by
  unfold labelValue
  cases h : getA meta nm with
  | none => rfl
  | some v => cases v <;> rfl

theorem writeAxisLabels_frame (gp ep : List String)
    (meta : List (String × Value)) (shape : List Nat)
    (labels : List (String × String)) :
    ∀ (count : Nat) (c : H5Contents) (q : List String),
      (∀ nm, nm ∈ labels.map Prod.fst → q ≠ gp ++ [nm]) →
      getA (writeAxisLabels gp ep meta shape count labels c).1.dsets q =
        getA c.dsets q := by
  induction labels with
  | nil => intro count c q _; rfl
  | cons hd rest ih =>
    obtain ⟨nm, u⟩ := hd
    intro count c q hq
    simp only [writeAxisLabels]
    rw [ih (count + 1) _ q (fun x hx => hq x (by simp [hx]))]
    simp only [createDsetC, dsets_setGroupAttr]
    exact getA_setA_ne _ _ _ _ (fun e => (hq nm (by simp)) e.symm)

theorem writeAxisLabels_get (gp ep : List String)
    (meta : List (String × Value)) (shape : List Nat)
    (labels : List (String × String)) :
    ∀ (count : Nat) (c : H5Contents),
      (labels.map Prod.fst).Nodup →
      ∀ i, (hi : i < labels.length) →
      getA (writeAxisLabels gp ep meta shape count labels c).1.dsets
          (gp ++ [(labels.get ⟨i, hi⟩).1]) =
        some (mkLabelDset
          (labelValue meta shape (count + i) (labels.get ⟨i, hi⟩).1)
          (labels.get ⟨i, hi⟩).2) := by
  induction labels with
  | nil => intro _ _ _ i hi; exact absurd hi (by simp)
  | cons hd rest ih =>
    obtain ⟨nm, u⟩ := hd
    intro count c hnd i hi
    rw [List.map_cons] at hnd
    cases i with
    | zero =>
      simp only [writeAxisLabels, List.get]
      rw [writeAxisLabels_frame gp ep meta shape rest (count + 1) _ _
        (fun x hx e => (List.nodup_cons.mp hnd).1
          (by
            have : nm = x := by simpa using List.append_cancel_left e
            rw [this]; exact hx))]
      simp [createDsetC, dsets_setGroupAttr, getA_setA_self]
    | succ j =>
      simp only [writeAxisLabels, List.get]
      have hj : j < rest.length := by simpa using hi
      have hres := ih (count + 1)
        (createDsetC (setGroupAttr c ep (nm ++ "_indices") (.vNat count))
          (gp ++ [nm]) (mkLabelDset (labelValue meta shape count nm) u))
        (List.nodup_cons.mp hnd).2 j hj
      have harith : count + 1 + j = count + (j + 1) := by omega
      rw [harith] at hres
      exact hres

theorem groupAttr_setGroupAttr_self (c : H5Contents) (p : List String)
    (a : String) (v : Value) : groupAttr (setGroupAttr c p a v) p a = some v := by
  unfold groupAttr setGroupAttr
  cases h : getA c.groups p <;> simp [h, getA_setA_self, getA]

/-- C9: `__output_axis_labels` writes, for each axis of the Descriptor,
the metadata value registered under the label's name verbatim when
present (with a plain list coerced to a dense array), and otherwise the
ascending integer sequence 0..extent-1 for that axis; each label dataset
carries a `units` attribute with the label's unit; and the ordered list
of label names is recorded as the entry group's `axes` attribute. -/
theorem C9_axis_label_serialization (d : Descriptor) (ep : List String)
    (c : H5Contents) (hnd : (d.axis_labels.map Prod.fst).Nodup) :
    (∀ i, (hi : i < d.axis_labels.length) →
      dsetContent (output_axis_labels d ep c).1
          (d.group ++ [(d.axis_labels.get ⟨i, hi⟩).1]) =
        some (match getA d.meta_data (d.axis_labels.get ⟨i, hi⟩).1 with
          | some (.vList xs) => .vNatArr xs
          | some v => v
          | none => .vNatArr (List.range (d.shape.getD i 0))) ∧
      dsetAttr (output_axis_labels d ep c).1
          (d.group ++ [(d.axis_labels.get ⟨i, hi⟩).1]) "units" =
        some (.vStr (d.axis_labels.get ⟨i, hi⟩).2)) ∧
    groupAttr (output_axis_labels d ep c).1 ep "axes" =
      some (.vStrArr (d.axis_labels.map Prod.fst)) := by
  constructor
  · intro i hi
    have hget := writeAxisLabels_get d.group ep d.meta_data d.shape
      d.axis_labels 0 c hnd i hi
    constructor
    · simp only [output_axis_labels, dsetContent, dsets_setGroupAttr]
      rw [hget]
      cases hm : getA d.meta_data (d.axis_labels.get ⟨i, hi⟩).1 with
      | none =>
        simp only [labelValue, hm, mkLabelDset, Option.map, Nat.zero_add]
      | some v =>
        cases v <;>
          simp only [labelValue, hm, mkLabelDset, Option.map, Nat.zero_add,
            coerceValue]
    · simp only [output_axis_labels, dsetAttr, dsets_setGroupAttr]
      rw [hget]
      simp [mkLabelDset, getA]
  · simp only [output_axis_labels]
    exact groupAttr_setGroupAttr_self _ _ _ _

/-- C9 witness: the theorem applied to the concrete fixture — the axis
label `x` picks up the plain-list metadata value coerced to a dense
array, carries its `mm` units attribute, and the group-level `axes`
attribute lists the label names in order. -/
theorem C9_witness :
    dsetContent (output_axis_labels d0 ["g"] ⟨[(["g"], [])], []⟩).1
        ["g", "x"] = some (.vNatArr [5, 7]) ∧
    dsetAttr (output_axis_labels d0 ["g"] ⟨[(["g"], [])], []⟩).1
        ["g", "x"] "units" = some (.vStr "mm") ∧
    groupAttr (output_axis_labels d0 ["g"] ⟨[(["g"], [])], []⟩).1
        ["g"] "axes" = some (.vStrArr ["x"]) := by
  have T := C9_axis_label_serialization d0 ["g"] ⟨[(["g"], [])], []⟩ (by decide)
  exact ⟨(T.1 0 (by decide)).1, (T.1 0 (by decide)).2, T.2⟩

theorem groups_createDsetC (c : H5Contents) (p : List String) (ds : Dset) :
    (createDsetC c p ds).groups = c.groups := rfl

theorem setGroupAttr_groups_frame (c : H5Contents) (p q : List String)
    (a : String) (v : Value) (h : q ≠ p) :
    getA (setGroupAttr c p a v).groups q = getA c.groups q := by
  unfold setGroupAttr
  cases hg : getA c.groups p
  · exact getA_setA_ne _ _ _ _ (Ne.symm h)
  · exact getA_setA_ne _ _ _ _ (Ne.symm h)

theorem ne_of_append_len {α : Type} (gp : List α) (l₁ l₂ : List α)
    (h : l₁.length ≠ l₂.length) : gp ++ l₁ ≠ gp ++ l₂ :=
  fun e => h (by rw [List.append_cancel_left e])

theorem path2_ne_of_head_ne (pp : List String) (a b x y : String)
    (h : a ≠ x) : pp ++ [a, b] ≠ pp ++ [x, y] := by
  intro e
  have e2 := List.append_cancel_left e
  injection e2 with h1 _
  exact h h1

theorem path2_ne_of_tail_ne (pp : List String) (a b x y : String)
    (h : b ≠ y) : pp ++ [a, b] ≠ pp ++ [x, y] := by
  intro e
  have e2 := List.append_cancel_left e
  injection e2 with _ e3
  injection e3 with h2 _
  exact h h2

theorem getA_some_mem {α β : Type} [DecidableEq α] (m : List (α × β))
    (k : α) (v : β) (h : getA m k = some v) : (k, v) ∈ m := by
  induction m with
  | nil => simp [getA] at h
  | cons kv m ih =>
    obtain ⟨k₀, v₀⟩ := kv
    by_cases h₀ : k₀ = k
    · subst h₀
      have hv : v₀ = v := by simpa [getA] using h
      subst hv
      exact List.mem_cons_self _ _
    · exact List.mem_cons_of_mem _ (ih (by simpa [getA, h₀] using h))

theorem writeAxisLabels_groups_frame (gp ep : List String)
    (meta : List (String × Value)) (shape : List Nat)
    (labels : List (String × String)) :
    ∀ (count : Nat) (c : H5Contents) (q : List String), q ≠ ep →
      getA (writeAxisLabels gp ep meta shape count labels c).1.groups q =
        getA c.groups q := by
  induction labels with
  | nil => intro _ _ _ _; rfl
  | cons hd rest ih =>
    obtain ⟨nm, u⟩ := hd
    intro count c q hq
    simp only [writeAxisLabels]
    rw [ih (count + 1) _ q hq]
    exact setGroupAttr_groups_frame c ep q _ _ hq

theorem writeAxisLabels_dsets_mono (gp ep : List String)
    (meta : List (String × Value)) (shape : List Nat)
    (labels : List (String × String)) :
    ∀ (count : Nat) (c : H5Contents) (q : List String),
      (getA c.dsets q).isSome →
      (getA (writeAxisLabels gp ep meta shape count labels c).1.dsets q).isSome := by
  induction labels with
  | nil => intro _ _ _ hq; exact hq
  | cons hd rest ih =>
    obtain ⟨nm, u⟩ := hd
    intro count c q hq
    simp only [writeAxisLabels]
    refine ih (count + 1) _ q ?_
    simp only [createDsetC, dsets_setGroupAttr]
    exact isSome_getA_setA _ _ _ _ hq

theorem writePatterns_dsets_frame (pp : List String)
    (pats : List (String × List Nat × List Nat)) :
    ∀ (c : H5Contents) (q : List String),
      (∀ p cs ss, (p, cs, ss) ∈ pats →
        q ≠ pp ++ [p, "core_dir"] ∧ q ≠ pp ++ [p, "slice_dir"]) →
      getA (writePatterns pp pats c).1.dsets q = getA c.dsets q := by
  induction pats with
  | nil => intro _ _ _; rfl
  | cons hd rest ih =>
    obtain ⟨p, cs, ss⟩ := hd
    intro c q hq
    simp only [writePatterns]
    rw [ih _ q (fun x a b hx => hq x a b (List.mem_cons_of_mem _ hx))]
    simp only [createDsetC, createGroupC]
    rw [getA_setA_ne _ _ _ _ (fun e => (hq p cs ss (List.mem_cons_self _ _)).2 e.symm),
        getA_setA_ne _ _ _ _ (fun e => (hq p cs ss (List.mem_cons_self _ _)).1 e.symm)]

theorem writePatterns_groups_frame (pp : List String)
    (pats : List (String × List Nat × List Nat)) :
    ∀ (c : H5Contents) (q : List String),
      (∀ p, p ∈ pats.map Prod.fst → q ≠ pp ++ [p]) →
      getA (writePatterns pp pats c).1.groups q = getA c.groups q := by
  induction pats with
  | nil => intro _ _ _; rfl
  | cons hd rest ih =>
    obtain ⟨p, cs, ss⟩ := hd
    intro c q hq
    simp only [writePatterns]
    rw [ih _ q (fun x hx => hq x (by simp [hx]))]
    simp only [createDsetC, createGroupC]
    exact getA_setA_ne _ _ _ _ (fun e => hq p (by simp) e.symm)

theorem writePatterns_dsets_mono (pp : List String)
    (pats : List (String × List Nat × List Nat)) :
    ∀ (c : H5Contents) (q : List String),
      (getA c.dsets q).isSome →
      (getA (writePatterns pp pats c).1.dsets q).isSome := by
  induction pats with
  | nil => intro _ _ hq; exact hq
  | cons hd rest ih =>
    obtain ⟨p, cs, ss⟩ := hd
    intro c q hq
    simp only [writePatterns]
    refine ih _ q ?_
    simp only [createDsetC, createGroupC]
    exact isSome_getA_setA _ _ _ _ (isSome_getA_setA _ _ _ _ hq)

theorem writePatterns_dsets_get (pp : List String)
    (pats : List (String × List Nat × List Nat)) :
    ∀ (c : H5Contents), (pats.map Prod.fst).Nodup →
      ∀ p cs ss, (p, cs, ss) ∈ pats →
      getA (writePatterns pp pats c).1.dsets (pp ++ [p, "core_dir"]) =
        some ⟨[cs.length], "int", none, .vNatArr cs, []⟩ ∧
      getA (writePatterns pp pats c).1.dsets (pp ++ [p, "slice_dir"]) =
        some ⟨[ss.length], "int", none, .vNatArr ss, []⟩ := by
  induction pats with
  | nil => intro _ _ _ _ _ h; cases h
  | cons hd rest ih =>
    obtain ⟨p₀, cs₀, ss₀⟩ := hd
    intro c hnd p cs ss hmem
    rw [List.map_cons] at hnd
    have hne : ∀ x, x ∈ rest.map Prod.fst → p₀ ≠ x :=
      fun x hx e => (List.nodup_cons.mp hnd).1 (e ▸ hx)
    rcases List.mem_cons.mp hmem with he | hmem'
    · simp only [Prod.mk.injEq] at he
      obtain ⟨rfl, rfl, rfl⟩ := he
      simp only [writePatterns]
      have hfr : ∀ y, y ∈ [pp ++ [p, "core_dir"], pp ++ [p, "slice_dir"]] →
          ∀ x a b, (x, a, b) ∈ rest →
          y ≠ pp ++ [x, "core_dir"] ∧ y ≠ pp ++ [x, "slice_dir"] := by
        intro y hy x a b hx
        have hpx : p ≠ x := hne x (List.mem_map_of_mem _ hx)
        rcases List.mem_cons.mp hy with rfl | hy'
        · exact ⟨path2_ne_of_head_ne _ _ _ _ _ hpx,
                 path2_ne_of_head_ne _ _ _ _ _ hpx⟩
        · rcases List.mem_cons.mp hy' with rfl | hy''
          · exact ⟨path2_ne_of_head_ne _ _ _ _ _ hpx,
                   path2_ne_of_head_ne _ _ _ _ _ hpx⟩
          · cases hy''
      constructor
      · rw [writePatterns_dsets_frame pp rest _ _
          (fun x a b hx => hfr _ (by simp) x a b hx)]
        simp only [createDsetC, createGroupC]
        rw [getA_setA_ne _ _ _ _
          (path2_ne_of_tail_ne pp p "slice_dir" p "core_dir" (by decide))]
        exact getA_setA_self _ _ _
      · rw [writePatterns_dsets_frame pp rest _ _
          (fun x a b hx => hfr _ (by simp) x a b hx)]
        simp only [createDsetC, createGroupC]
        exact getA_setA_self _ _ _
    · simp only [writePatterns]
      exact ih _ (List.nodup_cons.mp hnd).2 p cs ss hmem'

theorem writeMetaDict_dsets_frame (mp : List String)
    (kvs : List (String × Value)) :
    ∀ (c : H5Contents) (q : List String),
      (∀ k v, (k, v) ∈ kvs → q ≠ mp ++ [k, k]) →
      getA (writeMetaDict mp kvs c).1.dsets q = getA c.dsets q := by
  induction kvs with
  | nil => intro _ _ _; rfl
  | cons hd rest ih =>
    obtain ⟨k, v⟩ := hd
    intro c q hq
    simp only [writeMetaDict]
    rw [ih _ q (fun x a hx => hq x a (List.mem_cons_of_mem _ hx))]
    simp only [createDsetC, createGroupC]
    exact getA_setA_ne _ _ _ _ (fun e => hq k v (List.mem_cons_self _ _) e.symm)

theorem writeMetaDict_groups_frame (mp : List String)
    (kvs : List (String × Value)) :
    ∀ (c : H5Contents) (q : List String),
      (∀ k v, (k, v) ∈ kvs → q ≠ mp ++ [k]) →
      getA (writeMetaDict mp kvs c).1.groups q = getA c.groups q := by
  induction kvs with
  | nil => intro _ _ _; rfl
  | cons hd rest ih =>
    obtain ⟨k, v⟩ := hd
    intro c q hq
    simp only [writeMetaDict]
    rw [ih _ q (fun x a hx => hq x a (List.mem_cons_of_mem _ hx))]
    simp only [createDsetC, createGroupC]
    exact getA_setA_ne _ _ _ _ (fun e => hq k v (List.mem_cons_self _ _) e.symm)

theorem writeMetaDict_groups_mono (mp : List String)
    (kvs : List (String × Value)) :
    ∀ (c : H5Contents) (q : List String),
      (getA c.groups q).isSome →
      (getA (writeMetaDict mp kvs c).1.groups q).isSome := by
  induction kvs with
  | nil => intro _ _ hq; exact hq
  | cons hd rest ih =>
    obtain ⟨k, v⟩ := hd
    intro c q hq
    simp only [writeMetaDict]
    refine ih _ q ?_
    simp only [createDsetC, createGroupC]
    exact isSome_getA_setA _ _ _ _ hq

theorem writeMetaDict_dsets_mono (mp : List String)
    (kvs : List (String × Value)) :
    ∀ (c : H5Contents) (q : List String),
      (getA c.dsets q).isSome →
      (getA (writeMetaDict mp kvs c).1.dsets q).isSome := by
  induction kvs with
  | nil => intro _ _ hq; exact hq
  | cons hd rest ih =>
    obtain ⟨k, v⟩ := hd
    intro c q hq
    simp only [writeMetaDict]
    refine ih _ q ?_
    simp only [createDsetC, createGroupC]
    exact isSome_getA_setA _ _ _ _ hq

theorem writeMetaDict_groups_mem (mp : List String)
    (kvs : List (String × Value)) :
    ∀ (c : H5Contents) (k : String) (v : Value), (k, v) ∈ kvs →
      (getA (writeMetaDict mp kvs c).1.groups (mp ++ [k])).isSome := by
  induction kvs with
  | nil => intro _ _ _ h; cases h
  | cons hd rest ih =>
    obtain ⟨k₀, v₀⟩ := hd
    intro c k v hmem
    rcases List.mem_cons.mp hmem with he | hmem'
    · simp only [Prod.mk.injEq] at he
      obtain ⟨rfl, rfl⟩ := he
      simp only [writeMetaDict]
      refine writeMetaDict_groups_mono mp rest _ _ ?_
      simp only [createDsetC, createGroupC]
      rw [getA_setA_self]
      rfl
    · simp only [writeMetaDict]
      exact ih _ k v hmem'

theorem output_axis_labels_dsets_mono (d : Descriptor) (ep : List String)
    (c : H5Contents) (q : List String) (h : (getA c.dsets q).isSome) :
    (getA (output_axis_labels d ep c).1.dsets q).isSome := by
  unfold output_axis_labels
  dsimp only
  rw [dsets_setGroupAttr]
  exact writeAxisLabels_dsets_mono _ _ _ _ _ _ _ _ h

theorem output_data_patterns_dsets_mono (d : Descriptor) (ep : List String)
    (c : H5Contents) (q : List String) (h : (getA c.dsets q).isSome) :
    (getA (output_data_patterns d ep c).1.dsets q).isSome := by
  unfold output_data_patterns
  dsimp only
  exact writePatterns_dsets_mono _ _ _ _ h

theorem output_metadata_dict_dsets_mono (d : Descriptor) (ep : List String)
    (c : H5Contents) (q : List String) (h : (getA c.dsets q).isSome) :
    (getA (output_metadata_dict d ep c).1.dsets q).isSome := by
  unfold output_metadata_dict
  dsimp only
  exact writeMetaDict_dsets_mono _ _ _ _ h

theorem output_metadata_dsets_mono (d : Descriptor) (ep : List String)
    (c : H5Contents) (q : List String) (h : (getA c.dsets q).isSome) :
    (getA (output_metadata d ep c).1.dsets q).isSome := by
  unfold output_metadata
  dsimp only
  exact output_metadata_dict_dsets_mono _ _ _ _
    (output_data_patterns_dsets_mono _ _ _ _
      (output_axis_labels_dsets_mono _ _ _ _ h))

theorem open_read_only_ok (fs : FS) (d : Descriptor) (fn : String)
    (ent : List String) (c : H5Contents) (hc : getA fs fn = some c)
    (hd : (getA c.dsets ent).isSome) :
    (open_read_only fs false d fn ent).1 =
      .ok ({ d with backing_file := some ⟨fn, "r"⟩, dataPath := ent }, fs) := by
  unfold open_read_only open_backing_h5
  simp [hc, hd]

/-- C8: writing axis labels, access patterns and metadata for a
Descriptor into its backing file's entry group, closing the file, and
reopening it through the read-only reopen path (single-process mode — in
MPI mode the source's reopen is not read-only, it truncates) succeeds
and yields the original values back: the reopened filesystem holds the
written contents, every axis label dataset still carries its `units`
attribute, every declared pattern's `core_dir` and `slice_dir` arrays
read back equal to the declared index sets, and a `meta_data` subgroup
exists for exactly the declared metadata keys. -/
theorem C8_round_trip (fs : FS) (d : Descriptor) (h : Handle)
    (c : H5Contents) (ds₀ : Dset)
    (_hbf : d.backing_file = some h)
    (_hfs : getA fs h.filename = some c)
    (hdata : getA c.dsets (d.group ++ ["data"]) = some ds₀)
    (hndL : (d.axis_labels.map Prod.fst).Nodup)
    (hndP : (d.data_patterns.map Prod.fst).Nodup)
    (hclean : ∀ k, getA c.groups (d.group ++ ["meta_data", k]) = none) :
    (open_read_only (setA fs h.filename (output_metadata d d.group c).1) false
        (close_file d true).1 h.filename (d.group ++ ["data"])).1 =
      .ok ({ (close_file d true).1 with
               backing_file := some ⟨h.filename, "r"⟩,
               dataPath := d.group ++ ["data"] },
           setA fs h.filename (output_metadata d d.group c).1) ∧
    getA (setA fs h.filename (output_metadata d d.group c).1) h.filename =
      some (output_metadata d d.group c).1 ∧
    (∀ i, (hi : i < d.axis_labels.length) →
      dsetAttr (output_metadata d d.group c).1
          (d.group ++ [(d.axis_labels.get ⟨i, hi⟩).1]) "units" =
        some (.vStr (d.axis_labels.get ⟨i, hi⟩).2)) ∧
    (∀ p cs ss, (p, cs, ss) ∈ d.data_patterns →
      dsetContent (output_metadata d d.group c).1
          (d.group ++ ["patterns", p, "core_dir"]) = some (.vNatArr cs) ∧
      dsetContent (output_metadata d d.group c).1
          (d.group ++ ["patterns", p, "slice_dir"]) = some (.vNatArr ss)) ∧
    (∀ k, (getA (output_metadata d d.group c).1.groups
        (d.group ++ ["meta_data", k])).isSome ↔
      (getA d.meta_data k).isSome) := by
  refine ⟨?_, getA_setA_self _ _ _, ?_, ?_, ?_⟩
  · -- the reopen succeeds and rebinds the handle read-only
    have hD : (getA (output_metadata d d.group c).1.dsets
        (d.group ++ ["data"])).isSome :=
      output_metadata_dsets_mono d d.group c _ (by rw [hdata]; rfl)
    exact open_read_only_ok _ _ _ _ _ (getA_setA_self _ _ _) hD
  · -- units attributes survive the later writers
    intro i hi
    have hA : getA (output_axis_labels d d.group c).1.dsets
        (d.group ++ [(d.axis_labels.get ⟨i, hi⟩).1]) =
        some (mkLabelDset (labelValue d.meta_data d.shape (0 + i)
          (d.axis_labels.get ⟨i, hi⟩).1) (d.axis_labels.get ⟨i, hi⟩).2) := by
      unfold output_axis_labels
      dsimp only
      rw [dsets_setGroupAttr]
      exact writeAxisLabels_get _ _ _ _ _ 0 c hndL i hi
    have hP : getA (output_data_patterns d d.group
        (output_axis_labels d d.group c).1).1.dsets
        (d.group ++ [(d.axis_labels.get ⟨i, hi⟩).1]) =
        getA (output_axis_labels d d.group c).1.dsets
        (d.group ++ [(d.axis_labels.get ⟨i, hi⟩).1]) := by
      unfold output_data_patterns
      dsimp only
      rw [writePatterns_dsets_frame _ _ _ _ ?hfrp]
      · rfl
      case hfrp =>
        intro p cs ss hp
        constructor <;>
          · intro e
            rw [List.append_assoc] at e
            have e2 := List.append_cancel_left e
            simp at e2
    have hM : getA (output_metadata d d.group c).1.dsets
        (d.group ++ [(d.axis_labels.get ⟨i, hi⟩).1]) =
        getA (output_data_patterns d d.group
          (output_axis_labels d d.group c).1).1.dsets
        (d.group ++ [(d.axis_labels.get ⟨i, hi⟩).1]) := by
      unfold output_metadata output_metadata_dict
      dsimp only
      rw [writeMetaDict_dsets_frame _ _ _ _ ?hfrm]
      · rfl
      case hfrm =>
        intro k v hk
        intro e
        rw [List.append_assoc] at e
        have e2 := List.append_cancel_left e
        simp at e2
    unfold dsetAttr
    rw [hM, hP, hA]
    simp [mkLabelDset, getA]
  · -- pattern index arrays read back as declared
    intro p cs ss hp
    have hM : ∀ q : List String,
        (∀ k v, (k, v) ∈ d.meta_data →
          q ≠ (d.group ++ ["meta_data"]) ++ [k, k]) →
        getA (output_metadata d d.group c).1.dsets q =
          getA (output_data_patterns d d.group
            (output_axis_labels d d.group c).1).1.dsets q := by
      intro q hq
      unfold output_metadata output_metadata_dict
      dsimp only
      rw [writeMetaDict_dsets_frame _ _ _ _ hq]
      rfl
    have hP := writePatterns_dsets_get (d.group ++ ["patterns"]) d.data_patterns
      (createGroupC (output_axis_labels d d.group c).1 (d.group ++ ["patterns"])
        [("NX_class", .vStr "NXcollection")]) hndP p cs ss hp
    constructor
    · unfold dsetContent
      rw [show d.group ++ ["patterns", p, "core_dir"] =
        (d.group ++ ["patterns"]) ++ [p, "core_dir"] from by simp]
      rw [hM _ ?hqc]
      · unfold output_data_patterns
        dsimp only
        rw [hP.1]
        rfl
      case hqc =>
        intro k v hk e
        rw [List.append_assoc, List.append_assoc] at e
        have e2 := List.append_cancel_left e
        simp at e2
    · unfold dsetContent
      rw [show d.group ++ ["patterns", p, "slice_dir"] =
        (d.group ++ ["patterns"]) ++ [p, "slice_dir"] from by simp]
      rw [hM _ ?hqs]
      · unfold output_data_patterns
        dsimp only
        rw [hP.2]
        rfl
      case hqs =>
        intro k v hk e
        rw [List.append_assoc, List.append_assoc] at e
        have e2 := List.append_cancel_left e
        simp at e2
  · -- the meta_data subgroups are exactly the declared keys
    intro k
    constructor
    · intro hsome
      by_cases hk : (getA d.meta_data k).isSome
      · exact hk
      · exfalso
        have hknone : getA d.meta_data k = none :=
          Option.not_isSome_iff_eq_none.mp hk
        have s1 : getA (output_axis_labels d d.group c).1.groups
            (d.group ++ ["meta_data", k]) = none := by
          unfold output_axis_labels
          dsimp only
          rw [setGroupAttr_groups_frame _ _ _ _ _ ?ne1]
          rw [writeAxisLabels_groups_frame _ _ _ _ _ _ _ _ ?ne2]
          · exact hclean k
          case ne1 =>
            intro e
            have := congrArg List.length e
            simp at this
          case ne2 =>
            intro e
            have := congrArg List.length e
            simp at this
        have s2 : getA (output_data_patterns d d.group
            (output_axis_labels d d.group c).1).1.groups
            (d.group ++ ["meta_data", k]) = none := by
          unfold output_data_patterns
          dsimp only
          rw [writePatterns_groups_frame _ _ _ _ ?nep]
          · simp only [createGroupC]
            rw [getA_setA_ne _ _ _ _ ?nep2]
            · exact s1
            case nep2 =>
              intro e
              have e2 := List.append_cancel_left e
              simp at e2
          case nep =>
            intro p hp e
            rw [List.append_assoc] at e
            have e2 := List.append_cancel_left e
            simp at e2
        have s3 : getA (output_metadata d d.group c).1.groups
            (d.group ++ ["meta_data", k]) = none := by
          unfold output_metadata output_metadata_dict
          dsimp only
          rw [writeMetaDict_groups_frame _ _ _ _ ?nem]
          · simp only [createGroupC]
            rw [getA_setA_ne _ _ _ _ ?nem2]
            · exact s2
            case nem2 =>
              intro e
              have e2 := List.append_cancel_left e
              simp at e2
          case nem =>
            intro x v hx e
            rw [List.append_assoc] at e
            have e2 := List.append_cancel_left e
            simp at e2
            exact ne_of_getA_eq_none _ _ _ _ hknone hx e2.symm
        rw [s3] at hsome
        simp at hsome
    · intro hsome
      obtain ⟨v, hv⟩ := Option.isSome_iff_exists.mp hsome
      have hmem := getA_some_mem _ _ _ hv
      rw [show d.group ++ ["meta_data", k] =
        (d.group ++ ["meta_data"]) ++ [k] from by simp]
      unfold output_metadata output_metadata_dict
      dsimp only
      exact writeMetaDict_groups_mem _ _ _ _ _ hmem

/-- C8 witness: the theorem applied to the concrete fixture — after the
write/close/reopen cycle, the `x` label keeps its `mm` units, the
`SINOGRAM` pattern's `core_dir` and `slice_dir` arrays read back as
declared, and a `meta_data` subgroup exists for the declared key `x`. -/
theorem C8_witness :
    dsetAttr (output_metadata d0 ["g"] cFull).1 ["g", "x"] "units" =
      some (.vStr "mm") ∧
    dsetContent (output_metadata d0 ["g"] cFull).1
      ["g", "patterns", "SINOGRAM", "core_dir"] = some (.vNatArr [1]) ∧
    dsetContent (output_metadata d0 ["g"] cFull).1
      ["g", "patterns", "SINOGRAM", "slice_dir"] = some (.vNatArr [0]) ∧
    (getA (output_metadata d0 ["g"] cFull).1.groups
      ["g", "meta_data", "x"]).isSome = true := by
  have T := C8_round_trip fsFull d0 ⟨"d/run42.h5", "w"⟩ cFull
    ⟨[2, 2], "float32", none, .vNat 0, []⟩ rfl rfl rfl (by decide) (by decide)
    (by intro k; simp [cFull, d0, getA])
  exact ⟨T.2.2.1 0 (by decide),
         (T.2.2.2.1 "SINOGRAM" [1] [0] (by decide)).1,
         (T.2.2.2.1 "SINOGRAM" [1] [0] (by decide)).2,
         (T.2.2.2.2 "x").mpr (by decide)⟩

end SavuHdf5
